import Mathlib

/-!
Shallow embedding of the job-orchestration core of the Tandera transcription
API (src/main.py, src/services/assembly_service.py, src/middleware/tenant.py,
src/services/download_service.py) together with theorems settling the frozen
claims about it.  Python dictionaries returned from the database are modelled
as structures with `Option` fields (a `none` models a JSON `null` / absent
key), Python exceptions are modelled with `Except` or `Option`, and Python
truthiness is modelled explicitly.
-/

/-- Truthiness of a Python value of type `Optional[str]`: `None` and the
empty string are falsy, every other string is truthy. -/
def pyTruthyOptStr : Option String → Bool
  | none => false
  | some s => !(s == "")

/-- Python `a or b` for `a : Optional[str]`, `b : str`: yields `b` when `a`
is falsy (that is, `None` or `""`), else the string held by `a`. -/
def pyOrStr (a : Option String) (b : String) : String :=
  match a with
  | none => b
  | some s => if s == "" then b else s

/-- Characters removed by Python `str.strip()` (ASCII whitespace:
space, tab, newline, carriage return, vertical tab, form feed). -/
def pyIsSpace (c : Char) : Bool :=
  c == ' ' || c == '\t' || c == '\n' || c == '\r' ||
  c == Char.ofNat 11 || c == Char.ofNat 12

/-- Python `str.strip()` on a character list: drop whitespace from both ends. -/
def pyStripList (cs : List Char) : List Char :=
  ((cs.dropWhile pyIsSpace).reverse.dropWhile pyIsSpace).reverse

/-- Python `str.strip()`. -/
def pyStrip (s : String) : String :=
  String.mk (pyStripList s.data)

/-- UTF-8 encoding of a single code point, as Python `str.encode("utf-8")`
produces for each character. -/
def utf8Char (c : Char) : List Nat :=
  let n := c.toNat
  if n < 128 then [n]
  else if n < 2048 then [192 + n / 64, 128 + n % 64]
  else if n < 65536 then [224 + n / 4096, 128 + (n / 64) % 64, 128 + n % 64]
  else [240 + n / 262144, 128 + (n / 4096) % 64, 128 + (n / 64) % 64, 128 + n % 64]

/-- UTF-8 encoding of a string as a byte list (Python `s.encode("utf-8")`). -/
def utf8Bytes (s : String) : List Nat :=
  (s.data.map utf8Char).flatten

/-! SHA-256, as computed by Python `hashlib.sha256`, over byte lists.
All word arithmetic is `Nat` reduced modulo `2 ^ 32`. -/

/-- Reduce to a 32-bit word. -/
def w32 (n : Nat) : Nat := n % 4294967296

/-- Right rotation of a 32-bit word by `n` bits. -/
def rotr32 (n x : Nat) : Nat := w32 (x / 2 ^ n + x % 2 ^ n * 2 ^ (32 - n))

/-- SHA-256 round constants. -/
def sha256K : List Nat :=
  [1116352408, 1899447441, 3049323471, 3921009573, 961987163, 1508970993,
   2453635748, 2870763221, 3624381080, 310598401, 607225278, 1426881987,
   1925078388, 2162078206, 2614888103, 3248222580, 3835390401, 4022224774,
   264347078, 604807628, 770255983, 1249150122, 1555081692, 1996064986,
   2554220882, 2821834349, 2952996808, 3210313671, 3336571891, 3584528711,
   113926993, 338241895, 666307205, 773529912, 1294757372, 1396182291,
   1695183700, 1986661051, 2177026350, 2456956037, 2730485921, 2820302411,
   3259730800, 3345764771, 3516065817, 3600352804, 4094571909, 275423344,
   430227734, 506948616, 659060556, 883997877, 958139571, 1322822218,
   1537002063, 1747873779, 1955562222, 2024104815, 2227730452, 2361852424,
   2428436474, 2756734187, 3204031479, 3329325298]

/-- SHA-256 initial hash state. -/
def sha256H0 : List Nat :=
  [1779033703, 3144134277, 1013904242, 2773480762,
   1359893119, 2600822924, 528734635, 1541459225]

/-- Message padding: append `128`, zero bytes, and the 64-bit big-endian
bit length so the total length is a multiple of 64 bytes. -/
def sha256Pad (msg : List Nat) : List Nat :=
  let L := msg.length
  let bits := 8 * L
  msg ++ [128] ++ List.replicate ((64 - (L + 9) % 64) % 64) 0 ++
    [bits / 2 ^ 56 % 256, bits / 2 ^ 48 % 256, bits / 2 ^ 40 % 256,
     bits / 2 ^ 32 % 256, bits / 2 ^ 24 % 256, bits / 2 ^ 16 % 256,
     bits / 2 ^ 8 % 256, bits % 256]

/-- Split a byte list into 64-byte blocks (structurally, so the kernel can
evaluate it; the padded message length is always a multiple of 64). -/
def sha256ChunksAux (acc : List Nat) (cs : List Nat) : List (List Nat) :=
  match cs with
  | [] => if acc.isEmpty then [] else [acc.reverse]
  | c :: rest =>
    if acc.length == 63 then (c :: acc).reverse :: sha256ChunksAux [] rest
    else sha256ChunksAux (c :: acc) rest

/-- Split a byte list into 64-byte blocks. -/
def sha256Chunks (cs : List Nat) : List (List Nat) :=
  sha256ChunksAux [] cs

/-- Group bytes into big-endian 32-bit words. -/
def sha256Words : List Nat → List Nat
  | a :: b :: c :: d :: rest =>
      (a * 16777216 + b * 65536 + c * 256 + d) :: sha256Words rest
  | _ => []

/-- Small sigma 0. -/
def sSig0 (x : Nat) : Nat := (rotr32 7 x) ^^^ (rotr32 18 x) ^^^ (x / 2 ^ 3)

/-- Small sigma 1. -/
def sSig1 (x : Nat) : Nat := (rotr32 17 x) ^^^ (rotr32 19 x) ^^^ (x / 2 ^ 10)

/-- Big sigma 0. -/
def bSig0 (x : Nat) : Nat := (rotr32 2 x) ^^^ (rotr32 13 x) ^^^ (rotr32 22 x)

/-- Big sigma 1. -/
def bSig1 (x : Nat) : Nat := (rotr32 6 x) ^^^ (rotr32 11 x) ^^^ (rotr32 25 x)

/-- Choice function. -/
def sha256Ch (x y z : Nat) : Nat := (x &&& y) ^^^ ((x ^^^ 4294967295) &&& z)

/-- Majority function. -/
def sha256Maj (x y z : Nat) : Nat := (x &&& y) ^^^ (x &&& z) ^^^ (y &&& z)

/-- Extend a 16-word block by one scheduled word. -/
def sha256ScheduleStep (w : List Nat) : List Nat :=
  let l := w.length
  w ++ [w32 (sSig1 (w.getD (l - 2) 0) + w.getD (l - 7) 0 +
             sSig0 (w.getD (l - 15) 0) + w.getD (l - 16) 0)]

/-- The 64-word message schedule of one block. -/
def sha256Schedule (block : List Nat) : List Nat :=
  Nat.repeat sha256ScheduleStep 48 block

/-- One compression round on the eight-word working state. -/
def sha256Round (st : List Nat) (k w : Nat) : List Nat :=
  match st with
  | [a, b, c, d, e, f, g, h] =>
    let t1 := w32 (h + bSig1 e + sha256Ch e f g + k + w)
    let t2 := w32 (bSig0 a + sha256Maj a b c)
    [w32 (t1 + t2), a, b, c, w32 (d + t1), e, f, g]
  | other => other

/-- Compress one 64-byte block into the running hash state. -/
def sha256Compress (h : List Nat) (block : List Nat) : List Nat :=
  let ws := sha256Schedule (sha256Words block)
  let st := (sha256K.zip ws).foldl (fun s kw => sha256Round s kw.1 kw.2) h
  (h.zip st).map (fun p => w32 (p.1 + p.2))

/-- SHA-256 digest of a byte list, as 32 bytes. -/
def sha256Digest (msg : List Nat) : List Nat :=
  let hs := (sha256Chunks (sha256Pad msg)).foldl sha256Compress sha256H0
  (hs.map (fun v => [v / 2 ^ 24 % 256, v / 2 ^ 16 % 256, v / 2 ^ 8 % 256, v % 256])).flatten

/-- Lowercase hex digit. -/
def hexDigit (n : Nat) : Char :=
  if n < 10 then Char.ofNat (48 + n) else Char.ofNat (87 + n)

/-- Lowercase hex rendering of a byte list. -/
def bytesToHex (bs : List Nat) : String :=
  String.mk ((bs.map (fun b => [hexDigit (b / 16), hexDigit (b % 16)])).flatten)

/-- SHA-256 hex digest of a byte list (Python `hashlib.sha256(b).hexdigest()`). -/
def sha256Hex (msg : List Nat) : String :=
  bytesToHex (sha256Digest msg)

/-- Embeds `_sha256_str` (src/main.py line 85): hex SHA-256 of the
stripped, UTF-8-encoded string, with `None` treated as the empty string. -/
def sha256Str (value : String) : String :=
  sha256Hex (utf8Bytes (pyStrip value))

/-! Fingerprints (ContentFingerprinter). -/

/-- Embeds the fingerprint computation of `transcribe_from_url`
(src/main.py line 327): `content:<file_hash>` when the download produced a
truthy content hash, else `url:<sha256 of the stripped URL>`. -/
def computeUrlHash (fileHash : Option String) (videoUrl : String) : String :=
  if pyTruthyOptStr fileHash then "content:" ++ fileHash.getD ""
  else "url:" ++ sha256Str videoUrl

/-- Embeds the fingerprint computation of `transcribe_upload`
(src/main.py line 482): `upload:<file_hash>`. -/
def computeUploadHash (fileHash : String) : String :=
  "upload:" ++ fileHash

/-! The `transcriptions` table and the dedup lookup. -/

/-- A persisted `transcriptions` row, restricted to the columns the
orchestration core reads.  `Option` fields model SQL `NULL`. -/
structure Row where
  id : Nat
  job_id : Option String
  status : Option String
  url_hash : Option String
  created_at : Nat
deriving DecidableEq, Repr

/-- Most recent row of a list (largest `created_at`; the earlier row wins
ties, modelling an arbitrary but fixed tie order of `ORDER BY ... DESC`). -/
def mostRecent (rows : List Row) : Option Row :=
  rows.foldl
    (fun best r =>
      match best with
      | none => some r
      | some b => if r.created_at > b.created_at then some r else some b)
    none

/-- Semantics of the Supabase query issued by `_find_transcription_by_hash`:
filter by `url_hash`, order by `created_at` descending, limit 1. -/
def queryByHash (db : List Row) (h : String) : List Row :=
  match mostRecent (db.filter (fun r => r.url_hash == some h)) with
  | some r => [r]
  | none => []

/-- Embeds `_find_transcription_by_hash` (src/main.py lines 89-111).  The
storage layer is a parameter `exec` that either returns rows or fails
(modelling any exception raised while querying); an empty fingerprint or a
storage failure yields `none`. -/
def findTranscriptionByHash (urlHash : String)
    (exec : String → Except String (List Row)) : Option Row :=
  if urlHash == "" then none
  else
    match exec urlHash with
    | .error _ => none
    | .ok rows => rows.head?

/-- A storage layer backed by an in-memory table that never fails. -/
def dbExec (db : List Row) : String → Except String (List Row) :=
  fun h => .ok (queryByHash db h)

/-- The job ids of all persisted rows. -/
def dbJobIds (db : List Row) : List String :=
  db.filterMap (fun r => r.job_id)

/-- The `TranscriptionResponse` model of src/main.py. -/
structure TResponse where
  job_id : String
  message : String
  status : String
deriving DecidableEq, Repr

/-- Outcome of the dedup check held under the per-fingerprint lock: either
return an existing record's response without starting work, or proceed to
submit the job. -/
inductive DedupDecision where
  | shortCircuit (resp : TResponse)
  | proceed
deriving DecidableEq, Repr

/-- Embeds the dedup check of `transcribe_from_url` (src/main.py lines
330-338): any existing record whose status is `processing` or `completed`
short-circuits with that record's `job_id` (falling back to the freshly
generated one when falsy) and status (falling back to `"done"`). -/
def transcribeUrlDedup (freshJobId urlHash : String)
    (exec : String → Except String (List Row)) : DedupDecision :=
  match findTranscriptionByHash urlHash exec with
  | some ex =>
    if ex.status == some "processing" || ex.status == some "completed" then
      .shortCircuit
        ⟨pyOrStr ex.job_id freshJobId, "Transcrição já existente",
         pyOrStr ex.status "done"⟩
    else .proceed
  | none => .proceed

/-- Embeds the dedup check of `transcribe_upload` (src/main.py lines
484-497): skipped entirely when `force` is truthy, else as in the URL path
but with status falling back to `"processing"`. -/
def transcribeUploadDedup (force : Bool) (freshJobId urlHash : String)
    (exec : String → Except String (List Row)) : DedupDecision :=
  if force then .proceed
  else
    match findTranscriptionByHash urlHash exec with
    | some ex =>
      if ex.status == some "processing" || ex.status == some "completed" then
        .shortCircuit
          ⟨pyOrStr ex.job_id freshJobId, "Transcrição já existente",
           pyOrStr ex.status "processing"⟩
      else .proceed
    | none => .proceed

/-! JSON extraction and the analysis-field defaulting of
`process_and_save_transcription`. -/

/-- Python values, as far as `json.loads` and the field defaulting need. -/
inductive PyVal where
  | pyNone
  | str (s : String)
  | int (n : Int)
  | bool (b : Bool)
  | list (xs : List PyVal)
  | dict (kvs : List (String × PyVal))

/-- Python truthiness of a `PyVal`. -/
def pyTruthy : PyVal → Bool
  | .pyNone => false
  | .str s => !(s == "")
  | .int n => !(n == 0)
  | .bool b => b
  | .list xs => !xs.isEmpty
  | .dict kvs => !kvs.isEmpty

/-- Python `dict.get` (assuming distinct keys, as `json.loads` produces). -/
def dictGet (kvs : List (String × PyVal)) (k : String) : Option PyVal :=
  (kvs.find? (fun p => p.1 == k)).map (fun p => p.2)

/-- Python `v or dflt` on an optional `PyVal`. -/
def pyOrVal (v : Option PyVal) (dflt : PyVal) : PyVal :=
  match v with
  | none => dflt
  | some x => if pyTruthy x then x else dflt

/-- Python `x if isinstance(x, list) else []`. -/
def listFieldOf (v : Option PyVal) : List PyVal :=
  match v with
  | some (.list xs) => xs
  | _ => []

/-- The backtick character, used by fenced code blocks. -/
def btick : Char := Char.ofNat 96

/-- Lowercased prefix test: Python `t.lower().startswith(pre)` for an
ASCII pattern `pre`. -/
def lowerStartsWith (t pre : List Char) : Bool :=
  pre.isPrefixOf (t.map Char.toLower)

/-- Strip Markdown code fences as `_extract_json_from_text` does:
a leading ```` ```json ````, a leading ```` ``` ````, and a trailing
```` ``` ````, re-stripping whitespace after each removal. -/
def stripFences (t : List Char) : List Char :=
  let t := if lowerStartsWith t [btick, btick, btick, 'j', 's', 'o', 'n']
    then pyStripList (t.drop 7) else t
  let t := if lowerStartsWith t [btick, btick, btick]
    then pyStripList (t.drop 3) else t
  let t := if [btick, btick, btick].isSuffixOf t
    then pyStripList (t.take (t.length - 3)) else t
  t

/-- The opening curly brace character. -/
def lbrace : Char := Char.ofNat 123

/-- The closing curly brace character. -/
def rbrace : Char := Char.ofNat 125

/-- Python `str.find` restricted to one character: index of the first
occurrence, or `none` (Python returns `-1`). -/
def charFindIdx (cs : List Char) (c : Char) : Option Nat :=
  cs.indexOf? c

/-- Python `str.rfind` restricted to one character: index of the last
occurrence, or `none`. -/
def charRFindIdx (cs : List Char) (c : Char) : Option Nat :=
  match cs.reverse.indexOf? c with
  | some i => some (cs.length - 1 - i)
  | none => none

/-- Embeds `_extract_json_from_text` (src/main.py lines 114-137).  The
collaborator `json.loads` is the parameter `loads`, returning `none` where
Python raises.  The final `re.search` branch of the source can only match
when the `find`/`rfind` guard already matched (the greedy pattern matches
exactly when some opening brace occurs strictly before some closing brace),
so it is subsumed by the guard and contributes no extra behaviour. -/
def extractJsonFromText (loads : String → Option PyVal) (text : String) : PyVal :=
  match loads text with
  | some v => v
  | none =>
    let t := stripFences (pyStripList text.data)
    match charFindIdx t lbrace, charRFindIdx t rbrace with
    | some s, some e =>
      if e > s then
        match loads (String.mk ((t.drop s).take (e + 1 - s))) with
        | some v => v
        | none => PyVal.dict []
      else PyVal.dict []
    | _, _ => PyVal.dict []

mutual

/-- Python `json.dumps` on a `PyVal` (string escaping elided: the claims
only evaluate it on lists of plain values). -/
def jsonDumpsVal : PyVal → String
  | .pyNone => "null"
  | .str s => "\"" ++ s ++ "\""
  | .int n => toString n
  | .bool b => if b then "true" else "false"
  | .list xs => "[" ++ jsonDumpsArr xs ++ "]"
  | .dict kvs => "\x7b" ++ jsonDumpsObj kvs ++ "\x7d"

/-- Comma-separated rendering of a JSON array body. -/
def jsonDumpsArr : List PyVal → String
  | [] => ""
  | [x] => jsonDumpsVal x
  | x :: y :: rest => jsonDumpsVal x ++ ", " ++ jsonDumpsArr (y :: rest)

/-- Comma-separated rendering of a JSON object body. -/
def jsonDumpsObj : List (String × PyVal) → String
  | [] => ""
  | [p] => "\"" ++ p.1 ++ "\": " ++ jsonDumpsVal p.2
  | p :: q :: rest => "\"" ++ p.1 ++ "\": " ++ jsonDumpsVal p.2 ++ ", " ++ jsonDumpsObj (q :: rest)

end

/-- Python `json.dumps` on a list. -/
def jsonDumpsList (xs : List PyVal) : String :=
  jsonDumpsVal (.list xs)

/-- The fields written by `process_and_save_transcription`
(src/main.py lines 266-287) when it marks a record completed. -/
structure UpdateData where
  status : String
  transcription : String
  executive_summary : PyVal
  decisions : String
  main_points : String
  action_items : String
  tags : String
  client : PyVal
  project : PyVal
  rito : PyVal
  title : PyVal
  reuniao : String
  participants : String
  metrics : String
  dates : String
  risks : String
  next_steps : String
  meeting_type : String

/-- Embeds the field defaulting of `process_and_save_transcription`
(src/main.py lines 197-210 and 266-287): scalar analysis fields default to
`"N/A"` when missing or falsy, list fields default to `[]` when missing or
not a list, the title falls back to a name derived from the file name, and
the record is written with status `completed` and the transcription text. -/
def buildUpdateData (kvs : List (String × PyVal))
    (transcriptionText fileName : String) (meetingType : Option String) :
    UpdateData :=
  { status := "completed"
    transcription := transcriptionText
    executive_summary := pyOrVal (dictGet kvs "executive_summary") (.str "N/A")
    decisions := jsonDumpsList (listFieldOf (dictGet kvs "decisions"))
    main_points := jsonDumpsList (listFieldOf (dictGet kvs "main_points"))
    action_items := jsonDumpsList (listFieldOf (dictGet kvs "action_items"))
    tags := jsonDumpsList (listFieldOf (dictGet kvs "tag"))
    client := pyOrVal (dictGet kvs "client") (.str "N/A")
    project := pyOrVal (dictGet kvs "project") (.str "N/A")
    rito := pyOrVal (dictGet kvs "rito") (.str "N/A")
    title := pyOrVal (dictGet kvs "title") (.str ("Reunião - " ++ fileName))
    reuniao := fileName
    participants := jsonDumpsList (listFieldOf (dictGet kvs "participants"))
    metrics := jsonDumpsList (listFieldOf (dictGet kvs "metrics"))
    dates := jsonDumpsList (listFieldOf (dictGet kvs "dates"))
    risks := jsonDumpsList (listFieldOf (dictGet kvs "risks"))
    next_steps := jsonDumpsList (listFieldOf (dictGet kvs "next_steps"))
    meeting_type := pyOrStr meetingType "projeto" }

/-- The summarizer stage of `process_and_save_transcription` (src/main.py
lines 191-292): a failing summarizer call is swallowed (`parsed = {}`), a
successful one goes through `_extract_json_from_text`, and the update row
is built from the parsed dictionary.  A non-dictionary extraction result
makes the source raise at `parsed.get` (modelled by `none`). -/
def processAnalysisFields (loads : String → Option PyVal)
    (gpt : Except String String) (transcriptionText fileName : String)
    (meetingType : Option String) : Option UpdateData :=
  let parsed : PyVal :=
    match gpt with
    | .error _ => .dict []
    | .ok resultText => extractJsonFromText loads resultText
  match parsed with
  | .dict kvs => some (buildUpdateData kvs transcriptionText fileName meetingType)
  | _ => none

/-! The JobPoller: `AssemblyAIService.wait_for_completion`. -/

/-- The transcript payload returned by the engine, restricted to what the
wait loop reads. -/
structure TData where
  text : String
  error : Option String
deriving DecidableEq, Repr

/-- One `get_transcription_status` call (src/services/assembly_service.py
lines 222-251): a transport-level failure, or the engine's status together
with the payload. -/
inductive PollStep where
  | transport (err : String)
  | ok (status : String) (data : TData)
deriving DecidableEq, Repr

/-- The dictionary returned by `wait_for_completion`, with its `success`,
optional `status`, optional `error` and optional `data` keys. -/
structure WaitOutcome where
  success : Bool
  status : Option String
  error : Option String
  data : Option TData
deriving DecidableEq, Repr

/-- Embeds the polling loop of `wait_for_completion`
(src/services/assembly_service.py lines 253-305).  `poll n` is the result
of the `n`-th status call; sleeping advances the clock by the current
interval (the status call itself is instantaneous in this model).  Besides
the returned dictionary the model records the clock value at return and
the list of sleeps performed, so timing claims can be stated. -/
def waitLoop (poll : Nat → PollStep) (maxWait elapsed interval n : Nat)
    (hi : 0 < interval) : WaitOutcome × Nat × List Nat :=
  if h : elapsed < maxWait then
    match poll n with
    | .transport err => (⟨false, none, some err, none⟩, elapsed, [])
    | .ok s d =>
      if s == "completed" then
        (⟨true, some "completed", none, some d⟩, elapsed, [])
      else if s == "error" then
        (⟨false, some "error",
          some (d.error.getD "Erro desconhecido na transcrição"), none⟩,
         elapsed, [])
      else
        let r := waitLoop poll maxWait (elapsed + interval)
          (min (interval + 2) 30) (n + 1) (by omega)
        (r.1, r.2.1, interval :: r.2.2)
  else
    (⟨false, none, some "Timeout aguardando transcrição", none⟩, elapsed, [])
termination_by maxWait - elapsed
decreasing_by omega

/-- Embeds `wait_for_completion` itself: the loop starts with a 5-second
interval at clock 0 (the default `max_wait_time` in the source is 3600). -/
def waitForCompletion (poll : Nat → PollStep) (maxWait : Nat) :
    WaitOutcome × Nat × List Nat :=
  waitLoop poll maxWait 0 5 0 (by omega)

/-- The interval sequence of the loop: 5 seconds, plus 2 per completed
poll, capped at 30. -/
def intervalSeq : Nat → Nat
  | 0 => 5
  | k + 1 => min (intervalSeq k + 2) 30

/-! The TenantCredentialResolver: request-scoped context and registry
cache (src/middleware/tenant.py). -/

/-- Resolved tenant data (the dictionary stored in
`TenantContext.tenant_data`); absent or `null` JSON fields are `none`. -/
structure TenantData where
  supabaseUrl : Option String
  anonKey : Option String
  serviceRole : Option String
deriving DecidableEq, Repr

/-- The per-request `TenantContext` object. -/
structure TenantCtx where
  tenant_slug : Option String
  tenant_data : Option TenantData
deriving DecidableEq, Repr

/-- The bindings of `_tenant_context_var`: each logical task (one per
concurrently handled request) has its own current binding, which is how
Python `contextvars` behave under asyncio. -/
abbrev CtxState := Nat → Option TenantCtx

/-- What a run of `TenantMiddleware.dispatch` produces: the binding map
while the inner handler runs, the binding map after the `finally` block,
and the handler's response (an `Except` models an exception escaping the
handler). -/
structure DispatchResult where
  midState : CtxState
  finalState : CtxState
  response : Except String String

/-- Embeds `TenantMiddleware.dispatch` (src/middleware/tenant.py lines
176-272) at the granularity of contextvar operations, for a request
handled by task `t`.  `OPTIONS` requests never touch the binding.
Otherwise the task's binding is saved (`token`), a freshly created context
is bound, resolution fills it in (resolution errors are swallowed in the
source, so `resolved` is the context as finally populated), the handler
runs against the task's own binding and may fail, and the `finally` block
restores the saved binding unconditionally. -/
def dispatchModel (t : Nat) (isOptions : Bool) (resolved : TenantCtx)
    (handler : Option TenantCtx → Except String String) (s : CtxState) :
    DispatchResult :=
  if isOptions then
    { midState := s, finalState := s, response := handler (s t) }
  else
    let token := s t
    let s1 : CtxState := fun u => if u = t then some resolved else s u
    let resp := handler (s1 t)
    let s2 : CtxState := fun u => if u = t then token else s1 u
    { midState := s1, finalState := s2, response := resp }

/-- The in-memory tenant cache `_tenant_cache`: association list from cache
key to the cached `tenant` payload (which can itself be `null`). -/
abbrev TenantCache := List (String × Option TenantData)

/-- Dictionary lookup in the cache. -/
def cacheLookup (c : TenantCache) (k : String) : Option (Option TenantData) :=
  (c.find? (fun p => p.1 == k)).map (fun p => p.2)

/-- Python `del cache[k]`. -/
def cacheDelete (c : TenantCache) (k : String) : TenantCache :=
  c.filter (fun p => !(p.1 == k))

/-- Python `cache[k] = v`. -/
def cacheInsert (c : TenantCache) (k : String) (v : Option TenantData) :
    TenantCache :=
  (k, v) :: cacheDelete c k

/-- Python `bool(cached_data.get("serviceRole")) if cached_data else False`. -/
def hasServiceRole : Option TenantData → Bool
  | none => false
  | some d => pyTruthyOptStr d.serviceRole

/-- One registry call: either any of the failure modes of the source
(invalid registry URL, missing service token, HTTP 4xx/5xx, exception),
all of which return `None` without caching, or a successful response whose
`tenant` payload is cached and returned. -/
inductive RegistryFetch where
  | fail
  | ok (td : Option TenantData)
deriving DecidableEq, Repr

/-- The fetch-and-cache tail of `get_tenant_from_registry`
(src/middleware/tenant.py lines 90-154). -/
def registryFetchPath (cache : TenantCache) (cacheKey : String)
    (fetch : RegistryFetch) : Option TenantData × TenantCache :=
  match fetch with
  | .fail => (none, cache)
  | .ok td => (td, cacheInsert cache cacheKey td)

/-- Embeds `get_tenant_from_registry` (src/middleware/tenant.py lines
61-154): backend-credential requests use the cache key `<slug>:backend`; a
cache hit is returned unless backend credentials were requested and the
cached entry lacks a truthy `serviceRole`, in which case the entry is
deleted and the registry is called afresh. -/
def getTenantFromRegistry (slug : String) (includeBackend : Bool)
    (cache : TenantCache) (fetch : RegistryFetch) :
    Option TenantData × TenantCache :=
  let cacheKey := if includeBackend then slug ++ ":backend" else slug
  match cacheLookup cache cacheKey with
  | some cached =>
    if includeBackend && !hasServiceRole cached then
      registryFetchPath (cacheDelete cache cacheKey) cacheKey fetch
    else (cached, cache)
  | none => registryFetchPath cache cacheKey fetch

/-! Helper lemmas. -/

/-- Python `None or b` yields `b`. -/
theorem pyOrStr_none (b : String) : pyOrStr none b = b := rfl

/-- Python `"" or b` yields `b`. -/
theorem pyOrStr_empty (b : String) : pyOrStr (some "") b = b := rfl

/-- Python `s or b` yields `s` for a nonempty string `s`. -/
theorem pyOrStr_some (s b : String) (h : s ≠ "") : pyOrStr (some s) b = s := by
  simp [pyOrStr, h]

/-- Both endpoints short-circuit on a found record whose status is
`processing` or `completed`, answering with the stored `job_id` and status
run through the Python `or` fallbacks. -/
theorem dedup_shortCircuit_of_found (freshJobId urlHash : String)
    (exec : String → Except String (List Row)) (ex : Row)
    (hfound : findTranscriptionByHash urlHash exec = some ex)
    (hstat : ex.status = some "processing" ∨ ex.status = some "completed") :
    transcribeUrlDedup freshJobId urlHash exec =
      .shortCircuit ⟨pyOrStr ex.job_id freshJobId, "Transcrição já existente",
        pyOrStr ex.status "done"⟩ ∧
    transcribeUploadDedup false freshJobId urlHash exec =
      .shortCircuit ⟨pyOrStr ex.job_id freshJobId, "Transcrição já existente",
        pyOrStr ex.status "processing"⟩ := by
  have hcond : (ex.status == some "processing" || ex.status == some "completed") = true := by
    rcases hstat with h | h <;> simp [h]
  unfold transcribeUrlDedup transcribeUploadDedup
  rw [hfound]
  simp [hcond]

/-- A single-row table answers the hash query with that row exactly when
the hashes match and the fingerprint is nonempty. -/
theorem findByHash_single (urlHash : String) (r : Row) :
    findTranscriptionByHash urlHash (dbExec [r]) =
      if urlHash ≠ "" ∧ r.url_hash = some urlHash then some r else none := by
  by_cases he : urlHash = ""
  · simp [findTranscriptionByHash, he]
  · by_cases hu : r.url_hash = some urlHash
    · simp [findTranscriptionByHash, dbExec, queryByHash, mostRecent, he, hu]
    · simp [findTranscriptionByHash, dbExec, queryByHash, mostRecent, he, hu]

/-! Claim C1. -/

/-- Table of the C1 counterexample: one record for the fingerprint
`content:abc`, status `completed`, created 10 minutes (600 seconds) before
the resubmission. -/
def copyPolicyDb : List Row :=
  [⟨1, some "old-job", some "completed", some "content:abc", 600⟩]

/-- C1, counterexample.  Submitting content whose fingerprint matches a
record completed 10 minutes earlier does not proceed to a copy run: both
endpoints short-circuit with the existing record's job id and status, and
in particular no new record (with or without a `[copy-<timestamp>]` name)
is created.  No copy-marker logic exists anywhere in the source. -/
theorem copy_policy_counterexample :
    transcribeUrlDedup "fresh-job" "content:abc" (dbExec copyPolicyDb) =
      .shortCircuit ⟨"old-job", "Transcrição já existente", "completed"⟩ ∧
    transcribeUploadDedup false "fresh-job" "content:abc" (dbExec copyPolicyDb) =
      .shortCircuit ⟨"old-job", "Transcrição já existente", "completed"⟩ ∧
    transcribeUrlDedup "fresh-job" "content:abc" (dbExec copyPolicyDb) ≠
      .proceed := by
  refine ⟨by decide, by decide, by decide⟩

/-- C1, amended.  For every submission whose fingerprint matches an
existing record with status `completed` (forceReprocess not set), the
orchestrator short-circuits: it answers with the existing record's job id
(falling back to the fresh one when the stored id is falsy) and status
`completed`, starts no new work and creates no new record, so the original
completed record is the only one and is unchanged. -/
theorem completed_match_short_circuits (freshJobId urlHash : String)
    (exec : String → Except String (List Row)) (ex : Row)
    (hfound : findTranscriptionByHash urlHash exec = some ex)
    (hstat : ex.status = some "completed") :
    transcribeUrlDedup freshJobId urlHash exec =
      .shortCircuit ⟨pyOrStr ex.job_id freshJobId,
        "Transcrição já existente", "completed"⟩ ∧
    transcribeUploadDedup false freshJobId urlHash exec =
      .shortCircuit ⟨pyOrStr ex.job_id freshJobId,
        "Transcrição já existente", "completed"⟩ := by
  have h := dedup_shortCircuit_of_found freshJobId urlHash exec ex hfound (Or.inr hstat)
  rw [hstat] at h
  simpa [pyOrStr] using h

/-- C1 witness: the amended behaviour at the counterexample table. -/
theorem completed_match_short_circuits_witness :
    transcribeUrlDedup "fresh-job" "content:abc" (dbExec copyPolicyDb) =
      .shortCircuit ⟨pyOrStr (some "old-job") "fresh-job",
        "Transcrição já existente", "completed"⟩ ∧
    transcribeUploadDedup false "fresh-job" "content:abc" (dbExec copyPolicyDb) =
      .shortCircuit ⟨pyOrStr (some "old-job") "fresh-job",
        "Transcrição já existente", "completed"⟩ :=
  completed_match_short_circuits "fresh-job" "content:abc" (dbExec copyPolicyDb)
    ⟨1, some "old-job", some "completed", some "content:abc", 600⟩
    (by decide) rfl

/-! Claim C2. -/

/-- Table of the C2 counterexample: one record for the fingerprint
`content:stale`, status `processing`, created at second 0.  The
resubmission happens at second 7800, i.e. the record is 130 minutes old,
beyond the claimed 120-minute stale threshold. -/
def staleDb : List Row :=
  [⟨1, some "old-job", some "processing", some "content:stale", 0⟩]

/-- C2, counterexample.  A `processing` record 130 minutes old (age
7800 - 0 seconds, at least the claimed default threshold of 120 minutes)
still short-circuits the resubmission with the stored job id: the code
never reads `created_at` (the dedup query selects only `id, job_id,
status`) and has no stale threshold, so the submission does not proceed
under a new job id. -/
theorem staleness_counterexample :
    (7800 : Nat) - 0 ≥ 120 * 60 ∧
    transcribeUrlDedup "fresh-job" "content:stale" (dbExec staleDb) =
      .shortCircuit ⟨"old-job", "Transcrição já existente", "processing"⟩ ∧
    transcribeUrlDedup "fresh-job" "content:stale" (dbExec staleDb) ≠
      .proceed := by
  refine ⟨by decide, by decide, by decide⟩

/-- C2, amended.  A submission matching an existing `processing` record
returns that record's job id and status immediately without starting new
work, regardless of the record's age: the decision is invariant under any
change of the record's `created_at`, there being no staleness check. -/
theorem processing_match_short_circuits (freshJobId urlHash : String)
    (exec : String → Except String (List Row)) (ex : Row)
    (hfound : findTranscriptionByHash urlHash exec = some ex)
    (hstat : ex.status = some "processing") :
    (transcribeUrlDedup freshJobId urlHash exec =
      .shortCircuit ⟨pyOrStr ex.job_id freshJobId,
        "Transcrição já existente", "processing"⟩) ∧
    (∀ (r : Row) (t₁ t₂ : Nat),
      transcribeUrlDedup freshJobId urlHash
          (dbExec [{ r with created_at := t₁ }]) =
        transcribeUrlDedup freshJobId urlHash
          (dbExec [{ r with created_at := t₂ }])) := by
  constructor
  · have h := (dedup_shortCircuit_of_found freshJobId urlHash exec ex hfound (Or.inl hstat)).1
    rw [hstat] at h
    simpa [pyOrStr] using h
  · intro r t₁ t₂
    unfold transcribeUrlDedup
    rw [findByHash_single, findByHash_single]
    by_cases hc : urlHash ≠ "" ∧ r.url_hash = some urlHash
    · simp [hc]
    · have hc₁ : ¬ (urlHash ≠ "" ∧ ({ r with created_at := t₁ } : Row).url_hash = some urlHash) := by
        simpa using hc
      have hc₂ : ¬ (urlHash ≠ "" ∧ ({ r with created_at := t₂ } : Row).url_hash = some urlHash) := by
        simpa using hc
      rw [if_neg hc₁, if_neg hc₂]

/-- C2 witness: the amended behaviour at the counterexample table. -/
theorem processing_match_short_circuits_witness :
    transcribeUrlDedup "fresh-job" "content:stale" (dbExec staleDb) =
      .shortCircuit ⟨pyOrStr (some "old-job") "fresh-job",
        "Transcrição já existente", "processing"⟩ :=
  (processing_match_short_circuits "fresh-job" "content:stale" (dbExec staleDb)
    ⟨1, some "old-job", some "processing", some "content:stale", 0⟩
    (by decide) rfl).1

/-! Claim C9. -/

/-- C9.  The dedup lookup returns "not found" rather than propagating an
error whenever the fingerprint is empty or the storage layer fails; it
never raises (it is total into `Option`, the storage failure being
consumed by the `except` that returns `None`). -/
theorem findByHash_error_tolerant (urlHash : String)
    (exec : String → Except String (List Row))
    (hfail : urlHash = "" ∨ ∃ e, exec urlHash = .error e) :
    findTranscriptionByHash urlHash exec = none := by
  rcases hfail with h | ⟨e, h⟩
  · simp [findTranscriptionByHash, h]
  · by_cases hu : urlHash = ""
    · simp [findTranscriptionByHash, hu]
    · simp [findTranscriptionByHash, hu, h]

/-- C9 witness: a concrete failing storage layer and the empty fingerprint. -/
theorem findByHash_error_tolerant_witness :
    findTranscriptionByHash "content:abc"
      (fun _ => .error "storage down") = none ∧
    findTranscriptionByHash "" (dbExec copyPolicyDb) = none :=
  ⟨findByHash_error_tolerant "content:abc" (fun _ => .error "storage down")
      (Or.inr ⟨"storage down", rfl⟩),
   findByHash_error_tolerant "" (dbExec copyPolicyDb) (Or.inl rfl)⟩

/-! Claim C10. -/

/-- C10.  When the dedup short-circuit fires, the response's job id is the
stored one, except that a `NULL` or empty stored job id falls back to the
UUID freshly generated for the current request — an identifier matching no
persisted record (given that the fresh id, being a fresh UUID, is not
among the stored job ids); the response status falls back to `"done"`
(URL path) or `"processing"` (upload path) when the stored status is
empty. -/
theorem dedup_jobid_fallback (freshJobId urlHash : String)
    (exec : String → Except String (List Row)) (ex : Row)
    (hfound : findTranscriptionByHash urlHash exec = some ex)
    (hstat : ex.status = some "processing" ∨ ex.status = some "completed") :
    (∃ resp, transcribeUrlDedup freshJobId urlHash exec = .shortCircuit resp ∧
      ((ex.job_id = none ∨ ex.job_id = some "") → resp.job_id = freshJobId) ∧
      (∀ j, ex.job_id = some j → j ≠ "" → resp.job_id = j) ∧
      ((ex.status = none ∨ ex.status = some "") → resp.status = "done") ∧
      resp.status = pyOrStr ex.status "done" ∧
      (∀ db, exec = dbExec db → freshJobId ∉ dbJobIds db →
        (ex.job_id = none ∨ ex.job_id = some "") →
        resp.job_id ∉ dbJobIds db)) ∧
    (∃ resp, transcribeUploadDedup false freshJobId urlHash exec = .shortCircuit resp ∧
      ((ex.job_id = none ∨ ex.job_id = some "") → resp.job_id = freshJobId) ∧
      (∀ j, ex.job_id = some j → j ≠ "" → resp.job_id = j) ∧
      ((ex.status = none ∨ ex.status = some "") → resp.status = "processing") ∧
      resp.status = pyOrStr ex.status "processing") := by
  obtain ⟨hurl, hup⟩ := dedup_shortCircuit_of_found freshJobId urlHash exec ex hfound hstat
  have hjidNone : (ex.job_id = none ∨ ex.job_id = some "") →
      pyOrStr ex.job_id freshJobId = freshJobId := by
    rintro (h | h) <;> rw [h]
    · exact pyOrStr_none freshJobId
    · exact pyOrStr_empty freshJobId
  have hjidSome : ∀ j, ex.job_id = some j → j ≠ "" →
      pyOrStr ex.job_id freshJobId = j := by
    intro j hj hne
    rw [hj]
    exact pyOrStr_some j freshJobId hne
  have hstatNE : ¬ (ex.status = none ∨ ex.status = some "") := by
    rintro (h | h) <;> rcases hstat with hs | hs <;> rw [h] at hs <;> simp at hs
  refine ⟨⟨_, hurl, hjidNone, hjidSome, fun h => absurd h hstatNE, rfl, ?_⟩,
          ⟨_, hup, hjidNone, hjidSome, fun h => absurd h hstatNE, rfl⟩⟩
  intro db hdb hfresh hjid
  rw [hjidNone hjid]
  exact hfresh

/-- Table of the C10 witness: a `completed` record whose stored job id is
`NULL`. -/
def nullJobDb : List Row :=
  [⟨1, none, some "completed", some "upload:h", 100⟩]

/-- C10 witness: at a record with a `NULL` job id the response carries the
freshly generated id, which matches no persisted record. -/
theorem dedup_jobid_fallback_witness :
    ∃ resp, transcribeUrlDedup "fresh-uuid" "upload:h" (dbExec nullJobDb) =
      .shortCircuit resp ∧ resp.job_id = "fresh-uuid" ∧
      resp.job_id ∉ dbJobIds nullJobDb := by
  obtain ⟨⟨resp, heq, hjidN, _, _, _, hnin⟩, _⟩ :=
    dedup_jobid_fallback "fresh-uuid" "upload:h" (dbExec nullJobDb)
      ⟨1, none, some "completed", some "upload:h", 100⟩ (by decide) (Or.inr rfl)
  exact ⟨resp, heq, hjidN (Or.inl rfl),
    hnin nullJobDb rfl (by decide) (Or.inl rfl)⟩

/-! Claim C5. -/

/-- Dropping-while skips over a front segment that satisfies `p` wholly. -/
theorem dropWhile_append_of_all (p : Char → Bool) (a b : List Char)
    (h : ∀ c ∈ a, p c = true) :
    (a ++ b).dropWhile p = b.dropWhile p := by
  induction a with
  | nil => rfl
  | cons c a ih =>
    simp only [List.cons_append, List.dropWhile_cons, h c (by simp), if_true]
    exact ih (fun x hx => h x (by simp [hx]))

/-- When some element of `a` falsifies `p`, dropping-while stops inside
`a` and the tail `b` survives untouched. -/
theorem dropWhile_append_of_ne_nil (p : Char → Bool) (a b : List Char)
    (h : a.dropWhile p ≠ []) :
    (a ++ b).dropWhile p = a.dropWhile p ++ b := by
  induction a with
  | nil => exact absurd rfl h
  | cons c a ih =>
    by_cases hc : p c = true
    · simp only [List.dropWhile_cons, hc, if_true] at h
      simp only [List.cons_append, List.dropWhile_cons, hc, if_true]
      exact ih h
    · simp [List.dropWhile_cons, hc]

/-- Stripping a fully-whitespace list gives the empty list. -/
theorem pyStripList_all_space (l : List Char)
    (h : ∀ c ∈ l, pyIsSpace c = true) : pyStripList l = [] := by
  unfold pyStripList
  rw [List.dropWhile_eq_nil_iff.mpr h]
  rfl

/-- Stripping is insensitive to whitespace-only padding on either side. -/
theorem pyStripList_pad (u w₁ w₂ : List Char)
    (h₁ : ∀ c ∈ w₁, pyIsSpace c = true) (h₂ : ∀ c ∈ w₂, pyIsSpace c = true) :
    pyStripList (w₁ ++ u ++ w₂) = pyStripList u := by
  by_cases hu : u.dropWhile pyIsSpace = []
  · have hall : ∀ c ∈ w₁ ++ u ++ w₂, pyIsSpace c = true := by
      intro c hc
      rcases List.mem_append.mp hc with hc | hc
      · rcases List.mem_append.mp hc with hc | hc
        · exact h₁ c hc
        · exact List.dropWhile_eq_nil_iff.mp hu c hc
      · exact h₂ c hc
    rw [pyStripList_all_space _ hall,
        pyStripList_all_space u (List.dropWhile_eq_nil_iff.mp hu)]
  · unfold pyStripList
    rw [List.append_assoc, dropWhile_append_of_all _ w₁ _ h₁,
        dropWhile_append_of_ne_nil _ u w₂ hu, List.reverse_append,
        dropWhile_append_of_all _ w₂.reverse _
          (fun c hc => h₂ c (List.mem_reverse.mp hc))]

/-- C5, amended.  A submission with an available content hash gets the
fingerprint `content:<hex>` independent of the locator, and leading or
trailing whitespace in a fallback URL does not change the `url:<hex>`
fingerprint (the strip is the only normalization; as the counterexample
shows, casing differences do change the fingerprint). -/
theorem fingerprint_stability :
    (∀ (fileHash : Option String) (url₁ url₂ : String),
      pyTruthyOptStr fileHash = true →
      computeUrlHash fileHash url₁ = computeUrlHash fileHash url₂) ∧
    (∀ (u w₁ w₂ : String),
      (∀ c ∈ w₁.data, pyIsSpace c = true) →
      (∀ c ∈ w₂.data, pyIsSpace c = true) →
      computeUrlHash none (w₁ ++ u ++ w₂) = computeUrlHash none u) := by
  constructor
  · intro fileHash url₁ url₂ ht
    simp [computeUrlHash, ht]
  · intro u w₁ w₂ h₁ h₂
    have hstrip : pyStrip (w₁ ++ u ++ w₂) = pyStrip u := by
      unfold pyStrip
      have hd : (w₁ ++ u ++ w₂).data = w₁.data ++ u.data ++ w₂.data := by
        simp
      rw [hd, pyStripList_pad u.data w₁.data w₂.data h₁ h₂]
    simp [computeUrlHash, sha256Str, hstrip]

/-- C5 witness: same content hash under two locators, and a
whitespace-padded fallback URL. -/
theorem fingerprint_stability_witness :
    computeUrlHash (some "deadbeef") "https://a.example/v.mp4" =
      computeUrlHash (some "deadbeef") "https://b.example/w.mp4" ∧
    computeUrlHash none ("  " ++ "https://a.example/v.mp4" ++ "\t") =
      computeUrlHash none "https://a.example/v.mp4" :=
  ⟨fingerprint_stability.1 (some "deadbeef") "https://a.example/v.mp4"
      "https://b.example/w.mp4" (by decide),
   fingerprint_stability.2 "https://a.example/v.mp4" "  " "\t"
      (by decide) (by decide)⟩

/-- C5, counterexample.  Casing differences in a fallback URL do change
the fingerprint: the source strips whitespace but never lowercases, so the
same location spelled `HTTP://EXAMPLE.COM` and `http://example.com`
fingerprints differently. -/
theorem fingerprint_casing_counterexample :
    computeUrlHash none "HTTP://EXAMPLE.COM" ≠
      computeUrlHash none "http://example.com" := by
  decide

/-! Claim C6. -/

/-- C6.  When no JSON object can be extracted from the summarizer response
(the extraction yields the empty dictionary), the persisted record has
every scalar analysis field equal to `"N/A"`, every list field equal to
the empty list, status `completed` and the transcription text intact, and
the pipeline returns normally (no error is surfaced). -/
theorem analysis_sentinel_on_unparsable (loads : String → Option PyVal)
    (resultText transcriptionText fileName : String)
    (meetingType : Option String)
    (hempty : extractJsonFromText loads resultText = .dict []) :
    processAnalysisFields loads (.ok resultText) transcriptionText fileName
        meetingType =
      some ⟨"completed", transcriptionText, .str "N/A", "[]", "[]", "[]", "[]",
        .str "N/A", .str "N/A", .str "N/A", .str ("Reunião - " ++ fileName),
        fileName, "[]", "[]", "[]", "[]", "[]", pyOrStr meetingType "projeto"⟩ := by
  simp only [processAnalysisFields]
  rw [hempty]
  rfl

/-- C6 witness: a summarizer answering plain prose (on which every
`json.loads` attempt fails) still yields the sentinel-filled completed
record. -/
theorem analysis_sentinel_witness :
    extractJsonFromText (fun _ => none) "sem json aqui" = .dict [] ∧
    processAnalysisFields (fun _ => none) (.ok "sem json aqui")
        "texto transcrito" "reuniao.mp3" none =
      some ⟨"completed", "texto transcrito", .str "N/A", "[]", "[]", "[]", "[]",
        .str "N/A", .str "N/A", .str "N/A",
        .str ("Reunião - " ++ "reuniao.mp3"), "reuniao.mp3",
        "[]", "[]", "[]", "[]", "[]", "projeto"⟩ :=
  ⟨rfl, analysis_sentinel_on_unparsable (fun _ => none) "sem json aqui"
    "texto transcrito" "reuniao.mp3" none rfl⟩

/-! Claim C7. -/

/-- C7.  The tenant context is request-scoped: a request handled by task
`t` binds its own freshly resolved context, that binding is never visible
to any other task `u` (neither while the handler runs nor afterwards), and
the binding of `t` is restored unconditionally when the request completes
— the restore lies in a `finally`, so it happens for any handler outcome,
error responses included. -/
theorem tenant_context_isolation (t u : Nat) (hne : u ≠ t)
    (isOptions : Bool) (resolved : TenantCtx)
    (handler : Option TenantCtx → Except String String) (s : CtxState) :
    (dispatchModel t isOptions resolved handler s).midState u = s u ∧
    (dispatchModel t isOptions resolved handler s).finalState u = s u ∧
    (dispatchModel t isOptions resolved handler s).finalState t = s t ∧
    (isOptions = false →
      (dispatchModel t isOptions resolved handler s).midState t = some resolved) := by
  cases isOptions <;> simp [dispatchModel, hne]

/-- C7 witness: two distinct tasks, an error-raising handler, and an empty
initial binding map. -/
theorem tenant_context_isolation_witness :
    (1 : Nat) ≠ 0 ∧
    ((dispatchModel 0 false ⟨some "acme", none⟩ (fun _ => .error "boom")
        (fun _ => none)).midState 1 = (fun _ => (none : Option TenantCtx)) 1 ∧
     (dispatchModel 0 false ⟨some "acme", none⟩ (fun _ => .error "boom")
        (fun _ => none)).finalState 1 = (fun _ => (none : Option TenantCtx)) 1 ∧
     (dispatchModel 0 false ⟨some "acme", none⟩ (fun _ => .error "boom")
        (fun _ => none)).finalState 0 = (fun _ => (none : Option TenantCtx)) 0 ∧
     (false = false →
      (dispatchModel 0 false ⟨some "acme", none⟩ (fun _ => .error "boom")
        (fun _ => none)).midState 0 = some ⟨some "acme", none⟩)) :=
  ⟨by decide,
   tenant_context_isolation 0 1 (by decide) false ⟨some "acme", none⟩
     (fun _ => .error "boom") (fun _ => none)⟩

/-! Claim C8. -/

/-- C8.  A cached tenant entry lacking a truthy `serviceRole` never
satisfies a backend-credential request: the stale entry is deleted and the
registry is called afresh, so the returned credentials come from the fetch
(and a failed fetch yields `None` with the degraded entry gone from the
cache), never from the degraded cache entry. -/
theorem degraded_cache_refetches (slug : String) (cache : TenantCache)
    (fetch : RegistryFetch) (cached : Option TenantData)
    (hhit : cacheLookup cache (slug ++ ":backend") = some cached)
    (hnorole : hasServiceRole cached = false) :
    getTenantFromRegistry slug true cache fetch =
      registryFetchPath (cacheDelete cache (slug ++ ":backend"))
        (slug ++ ":backend") fetch ∧
    (∀ td, fetch = .ok td →
      (getTenantFromRegistry slug true cache fetch).1 = td) ∧
    (fetch = .fail → getTenantFromRegistry slug true cache fetch =
      (none, cacheDelete cache (slug ++ ":backend"))) := by
  have hmain : getTenantFromRegistry slug true cache fetch =
      registryFetchPath (cacheDelete cache (slug ++ ":backend"))
        (slug ++ ":backend") fetch := by
    unfold getTenantFromRegistry
    simp only [if_true]
    rw [hhit]
    simp [hnorole]
  refine ⟨hmain, ?_, ?_⟩
  · intro td hf
    rw [hmain, hf]
    rfl
  · intro hf
    rw [hmain, hf]
    rfl

/-- Cache of the C8 witness: a backend entry for `acme` whose payload has
no `serviceRole`. -/
def degradedCache : TenantCache :=
  [("acme:backend", some ⟨some "https://acme.db", some "anon", none⟩)]

/-- C8 witness: the degraded entry is bypassed and the fresh registry
response (with `serviceRole`) is returned. -/
theorem degraded_cache_refetches_witness :
    cacheLookup degradedCache ("acme" ++ ":backend") =
      some (some ⟨some "https://acme.db", some "anon", none⟩) ∧
    (getTenantFromRegistry "acme" true degradedCache
      (.ok (some ⟨some "https://acme.db", some "anon", some "sr-key"⟩))).1 =
      some ⟨some "https://acme.db", some "anon", some "sr-key"⟩ :=
  ⟨by decide,
   (degraded_cache_refetches "acme" degradedCache
      (.ok (some ⟨some "https://acme.db", some "anon", some "sr-key"⟩))
      (some ⟨some "https://acme.db", some "anon", none⟩)
      (by decide) (by decide)).2.1
    (some ⟨some "https://acme.db", some "anon", some "sr-key"⟩) rfl⟩

/-! Claim C3. -/

/-- C3, amended.  From any reachable loop state with wait budget left, a
transport-level failure of the status call ends the wait immediately —
the failure dictionary is returned to the caller, with no retry and no
further sleep — exactly as an engine-reported terminal `error` status
does.  Neither is retried. -/
theorem poll_errors_end_wait (poll : Nat → PollStep)
    (maxWait elapsed interval n : Nat) (hi : 0 < interval)
    (hrun : elapsed < maxWait) :
    (∀ err, poll n = .transport err →
      waitLoop poll maxWait elapsed interval n hi =
        (⟨false, none, some err, none⟩, elapsed, [])) ∧
    (∀ d, poll n = .ok "error" d →
      waitLoop poll maxWait elapsed interval n hi =
        (⟨false, some "error",
          some (d.error.getD "Erro desconhecido na transcrição"), none⟩,
         elapsed, [])) := by
  constructor
  · intro err hp
    rw [waitLoop, dif_pos hrun, hp]
  · intro d hp
    rw [waitLoop, dif_pos hrun, hp]
    rfl

/-- Poll results of the C3 counterexample: the first status call fails at
the transport level; every later one would report completion. -/
def transientFailPoll : Nat → PollStep
  | 0 => .transport "connection reset"
  | _ => .ok "completed" ⟨"texto", none⟩

/-- Poll results with an engine-reported terminal error. -/
def engineErrorPoll : Nat → PollStep :=
  fun _ => .ok "error" ⟨"", some "audio invalido"⟩

/-- C3, counterexample.  With 3600 seconds of budget and a transient
transport failure on the very first status call, the wait returns that
failure immediately (clock 0, no sleeps) even though a single retry two
polls in would have observed `completed`: transport-level errors are not
retried. -/
theorem transport_retry_counterexample :
    waitForCompletion transientFailPoll 3600 =
      (⟨false, none, some "connection reset", none⟩, 0, []) ∧
    transientFailPoll 1 = .ok "completed" ⟨"texto", none⟩ := by
  constructor
  · rw [waitForCompletion, waitLoop, dif_pos (by omega : (0 : Nat) < 3600)]
    rfl
  · rfl

/-- C3 witness: the amended behaviour at the initial loop state, for both
a transport failure and an engine-reported error. -/
theorem poll_errors_end_wait_witness :
    (0 : Nat) < 5 ∧ (0 : Nat) < 3600 ∧
    waitLoop transientFailPoll 3600 0 5 0 (by omega) =
      (⟨false, none, some "connection reset", none⟩, 0, []) ∧
    waitLoop engineErrorPoll 3600 0 5 0 (by omega) =
      (⟨false, some "error", some "audio invalido", none⟩, 0, []) := by
  refine ⟨by decide, by decide, ?_, ?_⟩
  · exact (poll_errors_end_wait transientFailPoll 3600 0 5 0 (by omega)
      (by omega)).1 "connection reset" rfl
  · exact (poll_errors_end_wait engineErrorPoll 3600 0 5 0 (by omega)
      (by omega)).2 ⟨"", some "audio invalido"⟩ rfl

/-! Claim C4. -/

/-- The polling interval sequence never exceeds the 30-second ceiling. -/
theorem intervalSeq_le (n : Nat) : intervalSeq n ≤ 30 := by
  cases n with
  | zero => decide
  | succ k => simp only [intervalSeq]; omega

/-- The clock value at which the loop returns is bounded by the entry
clock or by `maxWait + 29`, whichever is larger, as long as the interval
respects the ceiling. -/
theorem waitLoop_elapsed_le (poll : Nat → PollStep) (maxWait : Nat) :
    ∀ (fuel elapsed interval n : Nat) (hi : 0 < interval),
      maxWait - elapsed ≤ fuel → interval ≤ 30 →
      (waitLoop poll maxWait elapsed interval n hi).2.1 ≤
        max elapsed (maxWait + 29) := by
  intro fuel
  induction fuel with
  | zero =>
    intro elapsed interval n hi hf hle
    have hnlt : ¬ elapsed < maxWait := by omega
    rw [waitLoop, dif_neg hnlt]
    exact le_max_left _ _
  | succ f ih =>
    intro elapsed interval n hi hf hle
    rw [waitLoop]
    by_cases hlt : elapsed < maxWait
    · rw [dif_pos hlt]
      cases hp : poll n with
      | transport err => exact le_max_left _ _
      | ok s d =>
        by_cases hs1 : (s == "completed") = true
        · simp only [hs1, if_true]
          exact le_max_left _ _
        · by_cases hs2 : (s == "error") = true
          · simp only [hs1, hs2, if_true, if_false, Bool.false_eq_true]
            exact le_max_left _ _
          · simp only [hs1, hs2, if_false, Bool.false_eq_true]
            have hrec := ih (elapsed + interval) (min (interval + 2) 30)
              (n + 1) (by omega) (by omega) (by omega)
            exact le_trans hrec (by omega)
    · rw [dif_neg hlt]
      exact le_max_left _ _

/-- The sleeps the loop performs are an initial run of the interval
sequence starting at the entry interval's position. -/
theorem waitLoop_sleeps_spec (poll : Nat → PollStep) (maxWait : Nat) :
    ∀ (fuel elapsed interval n m : Nat) (hi : 0 < interval),
      maxWait - elapsed ≤ fuel → interval = intervalSeq m →
      ∃ k, (waitLoop poll maxWait elapsed interval n hi).2.2 =
        (List.range k).map (fun j => intervalSeq (m + j)) := by
  intro fuel
  induction fuel with
  | zero =>
    intro elapsed interval n m hi hf heq
    have hnlt : ¬ elapsed < maxWait := by omega
    rw [waitLoop, dif_neg hnlt]
    exact ⟨0, by simp⟩
  | succ f ih =>
    intro elapsed interval n m hi hf heq
    rw [waitLoop]
    by_cases hlt : elapsed < maxWait
    · rw [dif_pos hlt]
      cases hp : poll n with
      | transport err => exact ⟨0, by simp⟩
      | ok s d =>
        by_cases hs1 : (s == "completed") = true
        · simp only [hs1, if_true]
          exact ⟨0, by simp⟩
        · by_cases hs2 : (s == "error") = true
          · simp only [hs1, hs2, if_true, if_false, Bool.false_eq_true]
            exact ⟨0, by simp⟩
          · simp only [hs1, hs2, if_false, Bool.false_eq_true]
            obtain ⟨k, hk⟩ := ih (elapsed + interval) (min (interval + 2) 30)
              (n + 1) (m + 1) (by omega) (by omega) (by rw [heq]; rfl)
            refine ⟨k + 1, ?_⟩
            rw [hk, heq, List.range_succ_eq_map]
            simp only [List.map_cons, List.map_map, Nat.add_zero]
            congr 1
            apply List.map_congr_left
            intro j hj
            simp only [Function.comp_apply]
            congr 1
            omega
    · rw [dif_neg hlt]
      exact ⟨0, by simp⟩

/-- C4.  The polling intervals of `wait_for_completion` are exactly an
initial run of the sequence 5, 7, 9, ..., capped at 30 seconds, so no
sleep ever exceeds the 30-second ceiling; and the loop returns — on a
terminal status, a transport failure, or timeout — no later than
`maxWait` plus one full polling interval (at most 30 seconds) after the
start. -/
theorem poller_backoff_bounds (poll : Nat → PollStep) (maxWait : Nat) :
    (∃ k, (waitForCompletion poll maxWait).2.2 =
      (List.range k).map intervalSeq) ∧
    (∀ x ∈ (waitForCompletion poll maxWait).2.2, x ≤ 30) ∧
    (waitForCompletion poll maxWait).2.1 ≤ maxWait + 30 := by
  obtain ⟨k, hk⟩ := waitLoop_sleeps_spec poll maxWait maxWait 0 5 0 0
    (by omega) (by omega) rfl
  have hk2 : (waitForCompletion poll maxWait).2.2 =
      (List.range k).map (fun j => intervalSeq (0 + j)) := hk
  have he : (waitForCompletion poll maxWait).2.1 ≤ max 0 (maxWait + 29) :=
    waitLoop_elapsed_le poll maxWait maxWait 0 5 0 (by omega) (by omega)
      (by omega)
  refine ⟨⟨k, ?_⟩, ?_, ?_⟩
  · rw [hk2]
    simp
  · intro x hx
    rw [hk2] at hx
    obtain ⟨j, _, hj⟩ := List.mem_map.mp hx
    rw [← hj]
    exact intervalSeq_le _
  · omega

/-- C4 witness: a run that completes on the first poll. -/
theorem poller_backoff_bounds_witness :
    (∃ k, (waitForCompletion (fun _ => .ok "completed" ⟨"texto", none⟩) 3600).2.2 =
      (List.range k).map intervalSeq) ∧
    (∀ x ∈ (waitForCompletion (fun _ => .ok "completed" ⟨"texto", none⟩) 3600).2.2,
      x ≤ 30) ∧
    (waitForCompletion (fun _ => .ok "completed" ⟨"texto", none⟩) 3600).2.1 ≤
      3600 + 30 :=
  poller_backoff_bounds (fun _ => .ok "completed" ⟨"texto", none⟩) 3600
